import Mathlib

/-!
Formal model of the data-windowing/aggregation pipeline of
`src/lib/GraphBrian.svelte` (function `loadAndProcessData`) and of the
estrus-display UI state of the same component.

Modelling conventions:
* a JavaScript number that may be `NaN` is modelled as `Option ℚ`
  (`none` = `NaN`/`undefined`); genuine finite numbers are `ℚ`;
* `d3.mean` ignores invalid (`NaN`/missing) entries and returns
  `undefined` when no valid entry exists, modelled by `d3Mean`;
* `x || 0` on a number coerces the falsy values (`undefined`, `NaN`,
  `0`) to `0`, modelled by `jsOrZero`;
* the JavaScript `%` operator on numbers is truncated remainder,
  modelled by `jsMod`; all its uses here have non-negative operands;
* a JS `Map` keeps key-insertion order and `Array.from(map.entries())`
  enumerates in that order, modelled by the association list built by
  `pushToGroup`;
* JS `%` on the non-negative integer `day` agrees with `Int.emod`.
-/

/-- `toFahrenheit(celsius) = celsius * 9/5 + 32`. -/
def toFahrenheit (celsius : ℚ) : ℚ := celsius * 9 / 5 + 32

/-- `toCelsius(fahrenheit) = (fahrenheit - 32) * 5/9`. -/
def toCelsius (fahrenheit : ℚ) : ℚ := (fahrenheit - 32) * 5 / 9

/-- `d3.mean`: drop invalid entries; `undefined` when none remain,
otherwise the arithmetic mean of the valid entries. -/
def d3Mean (xs : List (Option ℚ)) : Option ℚ :=
  let valid := xs.filterMap id
  if valid.length = 0 then none else some (valid.sum / valid.length)

/-- JavaScript `x || 0` on a number: falsy values (`undefined`/`NaN`,
modelled as `none`, and `0`) become `0`; anything else is unchanged. -/
def jsOrZero (x : Option ℚ) : ℚ :=
  match x with
  | none => 0
  | some q => if q = 0 then 0 else q

/-- Truncation toward zero, as JavaScript's `%` uses. -/
def jsTrunc (q : ℚ) : ℤ := if 0 ≤ q then ⌊q⌋ else ⌈q⌉

/-- JavaScript `a % b = a - b * trunc(a / b)` (finite operands, `b ≠ 0`). -/
def jsMod (a b : ℚ) : ℚ := a - b * jsTrunc (a / b)

/-- One parsed CSV row, restricted to the columns the component reads:
`fem_temp_1..13` and `male_temp_1..13`; a cell is `none` when the
column is missing or non-numeric (`+d[col]` gives `NaN`). -/
structure RawRow where
  femTemp : Fin 13 → Option ℚ
  maleTemp : Fin 13 → Option ℚ

/-- `type DataType = 'female' | 'male' | 'both'`. -/
inductive DataType where
  | female
  | male
  | both
deriving DecidableEq

/-- `getTempCols(dataType)` followed by `tempCols.map(col => +d[col])`:
the selected cohort cells of row `d`, in column order. -/
def getTemps (dt : DataType) (d : RawRow) : List (Option ℚ) :=
  match dt with
  | .female => (List.finRange 13).map d.femTemp
  | .male => (List.finRange 13).map d.maleTemp
  | .both => (List.finRange 13).map d.femTemp ++ (List.finRange 13).map d.maleTemp

/-- The per-row value pushed into the window group:
`const avgTemp = d3.mean(temps) || 0`. -/
def rowAvgTemp (dt : DataType) (d : RawRow) : ℚ :=
  jsOrZero (d3Mean (getTemps dt d))

/-- `const windowSize = 2.5`. -/
def windowSize : ℚ := 5 / 2

/-- `const windowIndex = Math.floor(i / windowSize)` for the zero-based
row ordinal `i`. -/
def windowIndexOf (i : ℕ) : ℕ := (⌊(i : ℚ) / windowSize⌋).toNat

/-- `if (!groupedData.has(k)) groupedData.set(k, []); groupedData.get(k)?.push(v)`
on an insertion-ordered map. -/
def pushToGroup (m : List (ℕ × List ℚ)) (k : ℕ) (v : ℚ) : List (ℕ × List ℚ) :=
  match m with
  | [] => [(k, [v])]
  | (k', vs) :: rest =>
      if k' = k then (k', vs ++ [v]) :: rest else (k', vs) :: pushToGroup rest k v

/-- The `rows.forEach((d, i) => ...)` loop: `i` is the ordinal of the
next row and `m` the accumulated `groupedData`. -/
def groupRowsAux (dt : DataType) (rows : List RawRow) (i : ℕ)
    (m : List (ℕ × List ℚ)) : List (ℕ × List ℚ) :=
  match rows with
  | [] => m
  | d :: rest =>
      groupRowsAux dt rest (i + 1) (pushToGroup m (windowIndexOf i) (rowAvgTemp dt d))

/-- `groupedData` after the full `forEach` loop. -/
def groupRows (rows : List RawRow) (dt : DataType) : List (ℕ × List ℚ) :=
  groupRowsAux dt rows 0 []

/-- `interface ProcessedDataPoint`: the `day` field is the fractional
day used as x-coordinate (`minute / 1440`); `light` and `estrus` are
the 0/1 numbers of the code. -/
structure ProcessedDataPoint where
  minute : ℚ
  day : ℚ
  avgTemp : ℚ
  light : ℕ
  estrus : ℕ
deriving DecidableEq

/-- Body of the `.map(([windowIndex, temps]) => ...)` that turns one
window group into one output record. -/
def mkPoint (windowIndex : ℕ) (temps : List ℚ) : ProcessedDataPoint :=
  let minute : ℚ := windowIndex * windowSize
  let day : ℤ := ⌊minute / 1440⌋
  let minuteOfDay : ℚ := jsMod minute 1440
  let light : ℕ := if minuteOfDay < 720 then 1 else 0
  let estrus : ℕ := if day % 4 = 2 then 1 else 0
  { minute := minute
    day := minute / 1440
    avgTemp := jsOrZero (d3Mean (temps.map some))
    light := light
    estrus := estrus }

/-- `processedData` as computed by `loadAndProcessData` from the parsed
rows and the current cohort selection. -/
def processRows (rows : List RawRow) (dt : DataType) : List ProcessedDataPoint :=
  (groupRows rows dt).map (fun p => mkPoint p.1 p.2)

/-- The data-dependent fragment of `createVisualization`: the early
`if (!processedData.length) return;` (modelled as `none`, i.e. nothing
is drawn) and the `visibleData` filter over the current x-domain. -/
def createVisualizationVisible (processedData : List ProcessedDataPoint)
    (xDomain : ℚ × ℚ) : Option (List ProcessedDataPoint) :=
  if processedData.length = 0 then none
  else some (processedData.filter (fun d => xDomain.1 ≤ d.day ∧ d.day ≤ xDomain.2))

/-- UI state relevant to estrus display: `let dataType: DataType` and
`let showEstrus`. -/
structure UIState where
  dataType : DataType
  showEstrus : Bool
deriving DecidableEq

/-- `let dataType: DataType = 'female'; let showEstrus = true`. -/
def initUIState : UIState := ⟨DataType.female, true⟩

/-- `updateDataType(newType)`: sets `dataType = newType` and resets
`showEstrus = false` when switching to `'male'` or `'both'`. -/
def updateDataType (s : UIState) (newType : DataType) : UIState :=
  let s1 : UIState := { s with dataType := newType }
  if newType ≠ DataType.female then { s1 with showEstrus := false } else s1

/-- The estrus-toggle button's click handler: flips `showEstrus` only
when `dataType === 'female'`, otherwise does nothing. -/
def estrusToggleClick (s : UIState) : UIState :=
  if s.dataType = DataType.female then { s with showEstrus := !s.showEstrus } else s

/-- The render guard `if (showEstrus && dataType === 'female')` under
which the estrus rectangles are appended. -/
def drawsEstrus (s : UIState) : Bool :=
  s.showEstrus && (s.dataType == DataType.female)

/-- The user interactions that touch `dataType` or `showEstrus`. -/
inductive UIEvent where
  | setDataType (t : DataType)
  | clickEstrusToggle

/-- One interaction step. -/
def uiStep (s : UIState) : UIEvent → UIState
  | .setDataType t => updateDataType s t
  | .clickEstrusToggle => estrusToggleClick s

/-- States reachable from the initial state by user interactions. -/
inductive ReachableUI : UIState → Prop where
  | init : ReachableUI initUIState
  | step (s : UIState) (e : UIEvent) : ReachableUI s → ReachableUI (uiStep s e)

/-- A row whose first female-cohort column holds `v` and whose other
cells are all non-numeric. -/
def mkRow (v : ℚ) : RawRow :=
  ⟨fun i => if i.val = 0 then some v else none, fun _ => none⟩

/-- A row all of whose cells are non-numeric. -/
def nanRow : RawRow := ⟨fun _ => none, fun _ => none⟩

/-- The spec's 5-row scenario: one cohort column valued
`[37.0, 37.2, 36.8, 37.4, 37.0]`. -/
def ex5 : List RawRow :=
  [mkRow 37, mkRow (186 / 5), mkRow (184 / 5), mkRow (187 / 5), mkRow 37]

/-- A 3-row input. -/
def ex3 : List RawRow := [mkRow 37, mkRow 37, mkRow 37]

/-- A numeric row followed by an all-non-numeric row; both land in
window 0. -/
def exNaN : List RawRow := [mkRow 37, nanRow]

lemma windowIndexOf_eq (i : ℕ) : windowIndexOf i = 2 * i / 5 := by
  unfold windowIndexOf windowSize
  have h : ((i : ℚ)) / (5 / 2) = ((2 * i : ℕ) : ℚ) / ((5 : ℕ) : ℚ) := by
    push_cast; ring
  rw [h, Int.floor_toNat, Nat.floor_div_eq_div]

lemma windowIndexOf_mono {i j : ℕ} (h : i ≤ j) : windowIndexOf i ≤ windowIndexOf j := by
  simp only [windowIndexOf_eq]; omega

lemma windowIndexOf_step (i : ℕ) : windowIndexOf (i + 1) ≤ windowIndexOf i + 1 := by
  simp only [windowIndexOf_eq]; omega

lemma windowIndexOf_zero : windowIndexOf 0 = 0 := by
  simp [windowIndexOf_eq]

lemma jsOrZero_some (q : ℚ) : jsOrZero (some q) = q := by
  rcases eq_or_ne q 0 with h | h <;> simp [jsOrZero, h]

lemma filterMap_id_map_some (l : List ℚ) : (l.map some).filterMap id = l := by
  induction l with
  | nil => rfl
  | cons a t ih => simp [ih]

lemma d3Mean_map_some (ts : List ℚ) (h : ts ≠ []) :
    d3Mean (ts.map some) = some (ts.sum / ts.length) := by
  simp [d3Mean, filterMap_id_map_some, List.length_eq_zero, h]

lemma mkPoint_avgTemp (k : ℕ) (ts : List ℚ) :
    (mkPoint k ts).avgTemp = jsOrZero (d3Mean (ts.map some)) := rfl

lemma mkPoint_minute (k : ℕ) (ts : List ℚ) :
    (mkPoint k ts).minute = (k : ℚ) * windowSize := rfl

lemma getTemps_female_mkRow (v : ℚ) :
    getTemps .female (mkRow v) =
      [some v, none, none, none, none, none, none, none, none, none, none, none, none] := rfl

lemma d3Mean_getTemps_mkRow (v : ℚ) : d3Mean (getTemps .female (mkRow v)) = some v := by
  simp [d3Mean, getTemps_female_mkRow]

lemma rowAvgTemp_mkRow (v : ℚ) : rowAvgTemp .female (mkRow v) = v := by
  rw [rowAvgTemp, d3Mean_getTemps_mkRow, jsOrZero_some]

lemma rowAvgTemp_nanRow : rowAvgTemp .female nanRow = 0 := rfl

lemma groupRows_ex5 :
    groupRows ex5 .female = [(0, [37, 186 / 5, 184 / 5]), (1, [187 / 5, 37])] := by
  simp [ex5, groupRows, groupRowsAux, rowAvgTemp_mkRow, windowIndexOf_eq, pushToGroup]

lemma processRows_ex5_avgTemps :
    (processRows ex5 .female).map (fun p => p.avgTemp) = [37, 186 / 5] := by
  rw [processRows, groupRows_ex5]
  simp [mkPoint, d3Mean, filterMap_id_map_some, jsOrZero_some]
  norm_num

lemma groupRows_ex3 : groupRows ex3 .female = [(0, [37, 37, 37])] := by
  simp [ex3, groupRows, groupRowsAux, rowAvgTemp_mkRow, windowIndexOf_eq, pushToGroup]

lemma processRows_ex3_length : (processRows ex3 .female).length = 1 := by
  rw [processRows, groupRows_ex3]; rfl

lemma groupRows_exNaN : groupRows exNaN .female = [(0, [37, 0])] := by
  simp [exNaN, groupRows, groupRowsAux, rowAvgTemp_mkRow, rowAvgTemp_nanRow,
    windowIndexOf_eq, pushToGroup]

lemma processRows_exNaN_avgTemps :
    (processRows exNaN .female).map (fun p => p.avgTemp) = [37 / 2] := by
  rw [processRows, groupRows_exNaN]
  simp only [List.map_cons, List.map_nil, mkPoint_avgTemp]
  norm_num [d3Mean, jsOrZero_some, List.filterMap_cons]

lemma groupRows_single : groupRows [mkRow 37] .female = [(0, [37])] := by
  simp [groupRows, groupRowsAux, rowAvgTemp_mkRow, windowIndexOf_eq, pushToGroup]

lemma processRows_single : processRows [mkRow 37] .female = [mkPoint 0 [37]] := by
  rw [processRows, groupRows_single]; rfl

lemma pushToGroup_map_fst (m : List (ℕ × List ℚ)) (k : ℕ) (v : ℚ) :
    (pushToGroup m k v).map Prod.fst =
      if k ∈ m.map Prod.fst then m.map Prod.fst else m.map Prod.fst ++ [k] := by
  induction m with
  | nil => simp [pushToGroup]
  | cons p rest ih =>
    obtain ⟨k', vs⟩ := p
    by_cases h : k' = k
    · subst h
      simp [pushToGroup]
    · by_cases hk : k ∈ rest.map Prod.fst
      · simp [pushToGroup, h, ih, hk, Ne.symm h]
      · simp [pushToGroup, h, ih, hk, Ne.symm h]

lemma groupRowsAux_map_fst (dt : DataType) (rows : List RawRow) :
    ∀ (s L : ℕ) (m : List (ℕ × List ℚ)),
      m.map Prod.fst = List.range L → windowIndexOf s ≤ L →
      ∃ L', (groupRowsAux dt rows s m).map Prod.fst = List.range L' ∧
        (rows = [] → L' = L) ∧
        (rows ≠ [] → L' = max L (windowIndexOf (s + rows.length - 1) + 1)) := by
  induction rows with
  | nil =>
    intro s L m hm _
    exact ⟨L, by simpa [groupRowsAux] using hm, fun _ => rfl, fun h => absurd rfl h⟩
  | cons d rest ih =>
    intro s L m hm hs
    have hkeys := pushToGroup_map_fst m (windowIndexOf s) (rowAvgTemp dt d)
    rw [hm] at hkeys
    by_cases hlt : windowIndexOf s < L
    · have hm1 : (pushToGroup m (windowIndexOf s) (rowAvgTemp dt d)).map Prod.fst =
          List.range L := by
        rw [hkeys, if_pos (List.mem_range.mpr hlt)]
      have hs1 : windowIndexOf (s + 1) ≤ L := by
        have := windowIndexOf_step s; omega
      obtain ⟨L', h1, h2, h3⟩ := ih (s + 1) L _ hm1 hs1
      refine ⟨L', by simpa [groupRowsAux] using h1, fun h => absurd h (by simp), fun _ => ?_⟩
      cases rest with
      | nil =>
        have h2' : L' = L := h2 rfl
        simp only [List.length_cons, List.length_nil, Nat.add_sub_cancel]
        omega
      | cons e t =>
        have h3' := h3 (by simp)
        have harg : s + 1 + (e :: t).length - 1 = s + (d :: e :: t).length - 1 := by
          simp; omega
        rw [harg] at h3'
        omega
    · have heq : windowIndexOf s = L := le_antisymm hs (not_lt.mp hlt)
      have hm1 : (pushToGroup m (windowIndexOf s) (rowAvgTemp dt d)).map Prod.fst =
          List.range (L + 1) := by
        rw [hkeys, if_neg (by simp [heq]), heq, ← List.range_succ]
      have hs1 : windowIndexOf (s + 1) ≤ L + 1 := by
        have := windowIndexOf_step s; omega
      obtain ⟨L', h1, h2, h3⟩ := ih (s + 1) (L + 1) _ hm1 hs1
      refine ⟨L', by simpa [groupRowsAux] using h1, fun h => absurd h (by simp), fun _ => ?_⟩
      cases rest with
      | nil =>
        have h2' : L' = L + 1 := h2 rfl
        simp only [List.length_cons, List.length_nil, Nat.add_sub_cancel]
        omega
      | cons e t =>
        have h3' := h3 (by simp)
        have harg : s + 1 + (e :: t).length - 1 = s + (d :: e :: t).length - 1 := by
          simp; omega
        rw [harg] at h3'
        have hmono : windowIndexOf s ≤ windowIndexOf (s + (d :: e :: t).length - 1) :=
          windowIndexOf_mono (by simp)
        omega

lemma groupRows_map_fst (rows : List RawRow) (dt : DataType) :
    (groupRows rows dt).map Prod.fst = List.range ((groupRows rows dt).length) := by
  obtain ⟨L', h1, _, _⟩ :=
    groupRowsAux_map_fst dt rows 0 0 [] rfl (by simp [windowIndexOf_zero])
  have hlen : (groupRows rows dt).length = L' := by
    have := congrArg List.length h1
    simpa [groupRows] using this
  rw [groupRows] at hlen ⊢
  rw [h1, hlen]

lemma groupRows_length (rows : List RawRow) (dt : DataType) (h : rows ≠ []) :
    (groupRows rows dt).length = windowIndexOf (rows.length - 1) + 1 := by
  obtain ⟨L', h1, _, h3⟩ :=
    groupRowsAux_map_fst dt rows 0 0 [] rfl (by simp [windowIndexOf_zero])
  have hlen : (groupRows rows dt).length = L' := by
    have := congrArg List.length h1
    simpa [groupRows] using this
  have hmax := h3 h
  simp only [Nat.zero_add, Nat.zero_max] at hmax
  omega

lemma pushToGroup_snd_ne (m : List (ℕ × List ℚ)) (k : ℕ) (v : ℚ)
    (h : ∀ p ∈ m, p.2 ≠ []) : ∀ p ∈ pushToGroup m k v, p.2 ≠ [] := by
  induction m with
  | nil =>
    intro p hp
    simp [pushToGroup] at hp
    subst hp; simp
  | cons q rest ih =>
    obtain ⟨k', vs⟩ := q
    intro p hp
    by_cases hk : k' = k
    · subst hk
      simp [pushToGroup] at hp
      rcases hp with hp | hp
      · subst hp; simp
      · exact h p (List.mem_cons_of_mem _ hp)
    · simp [pushToGroup, hk] at hp
      rcases hp with hp | hp
      · subst hp; exact h _ (List.mem_cons_self _ _)
      · exact ih (fun q hq => h q (List.mem_cons_of_mem _ hq)) p hp

lemma groupRowsAux_snd_ne (dt : DataType) (rows : List RawRow) :
    ∀ (s : ℕ) (m : List (ℕ × List ℚ)), (∀ p ∈ m, p.2 ≠ []) →
      ∀ p ∈ groupRowsAux dt rows s m, p.2 ≠ [] := by
  induction rows with
  | nil =>
    intro s m h p hp
    exact h p (by simpa [groupRowsAux] using hp)
  | cons d rest ih =>
    intro s m h p hp
    exact ih (s + 1) _ (pushToGroup_snd_ne _ _ _ h) p (by simpa [groupRowsAux] using hp)

lemma groupRows_snd_ne (rows : List RawRow) (dt : DataType) :
    ∀ p ∈ groupRows rows dt, p.2 ≠ [] :=
  groupRowsAux_snd_ne dt rows 0 [] (by simp)

lemma pushToGroup_snd_all (P : ℚ → Prop) (m : List (ℕ × List ℚ)) (k : ℕ) (v : ℚ)
    (h : ∀ p ∈ m, ∀ x ∈ p.2, P x) (hv : P v) :
    ∀ p ∈ pushToGroup m k v, ∀ x ∈ p.2, P x := by
  induction m with
  | nil =>
    intro p hp
    simp [pushToGroup] at hp
    subst hp
    intro x hx
    simp at hx
    subst hx; exact hv
  | cons q rest ih =>
    obtain ⟨k', vs⟩ := q
    intro p hp
    by_cases hk : k' = k
    · subst hk
      simp [pushToGroup] at hp
      rcases hp with hp | hp
      · subst hp
        intro x hx
        simp only [List.mem_append, List.mem_singleton] at hx
        rcases hx with hx | hx
        · exact h _ (List.mem_cons_self _ _) x hx
        · subst hx; exact hv
      · exact h p (List.mem_cons_of_mem _ hp)
    · simp [pushToGroup, hk] at hp
      rcases hp with hp | hp
      · subst hp; exact h _ (List.mem_cons_self _ _)
      · exact ih (fun q hq => h q (List.mem_cons_of_mem _ hq)) p hp

lemma groupRowsAux_snd_all (P : ℚ → Prop) (dt : DataType) (rows : List RawRow) :
    ∀ (s : ℕ) (m : List (ℕ × List ℚ)), (∀ p ∈ m, ∀ x ∈ p.2, P x) →
      (∀ d ∈ rows, P (rowAvgTemp dt d)) →
      ∀ p ∈ groupRowsAux dt rows s m, ∀ x ∈ p.2, P x := by
  induction rows with
  | nil =>
    intro s m h _ p hp
    exact h p (by simpa [groupRowsAux] using hp)
  | cons d rest ih =>
    intro s m h hrows p hp
    have hp' : p ∈ groupRowsAux dt rest (s + 1)
        (pushToGroup m (windowIndexOf s) (rowAvgTemp dt d)) := by
      simpa [groupRowsAux] using hp
    exact ih (s + 1) _
      (pushToGroup_snd_all P _ _ _ h (hrows d (List.mem_cons_self _ _)))
      (fun e he => hrows e (List.mem_cons_of_mem _ he)) p hp'

lemma windowIndexOf_eq_iff (i j : ℕ) :
    windowIndexOf i = j ↔
      ((j : ℚ) * windowSize ≤ (i : ℚ) ∧ (i : ℚ) < ((j : ℚ) + 1) * windowSize) := by
  rw [windowIndexOf_eq]
  unfold windowSize
  constructor
  · intro h
    constructor
    · have h5 : 5 * j ≤ 2 * i := by omega
      have hq : ((5 * j : ℕ) : ℚ) ≤ ((2 * i : ℕ) : ℚ) := by exact_mod_cast h5
      push_cast at hq
      linarith
    · have h5 : 2 * i < 5 * j + 5 := by omega
      have hq : ((2 * i : ℕ) : ℚ) < ((5 * j + 5 : ℕ) : ℚ) := by exact_mod_cast h5
      push_cast at hq
      linarith
  · rintro ⟨h1, h2⟩
    have h5 : ((5 * j : ℕ) : ℚ) ≤ ((2 * i : ℕ) : ℚ) := by push_cast; linarith
    have h6 : ((2 * i : ℕ) : ℚ) < ((5 * j + 5 : ℕ) : ℚ) := by push_cast; linarith
    have h5' : 5 * j ≤ 2 * i := by exact_mod_cast h5
    have h6' : 2 * i < 5 * j + 5 := by exact_mod_cast h6
    omega

lemma mkPoint_light_iff (k : ℕ) (ts : List ℚ) :
    (mkPoint k ts).light = 1 ↔
      (mkPoint k ts).minute - 1440 * ⌊(mkPoint k ts).minute / 1440⌋ < 720 := by
  have hnn : (0 : ℚ) ≤ (k : ℚ) * windowSize := by
    unfold windowSize; positivity
  have hl : (mkPoint k ts).light =
      if jsMod ((k : ℚ) * windowSize) 1440 < 720 then 1 else 0 := rfl
  have hmod : jsMod ((k : ℚ) * windowSize) 1440 =
      (k : ℚ) * windowSize - 1440 * ⌊(k : ℚ) * windowSize / 1440⌋ := by
    unfold jsMod jsTrunc
    rw [if_pos (div_nonneg hnn (by norm_num))]
  rw [hl, mkPoint_minute, hmod]
  split_ifs with h
  · simp [h]
  · simp [h]

lemma mkPoint_estrus_iff (k : ℕ) (ts : List ℚ) :
    (mkPoint k ts).estrus = 1 ↔ ⌊(mkPoint k ts).minute / 1440⌋ % 4 = 2 := by
  have he : (mkPoint k ts).estrus =
      if ⌊(k : ℚ) * windowSize / 1440⌋ % 4 = 2 then 1 else 0 := rfl
  rw [he, mkPoint_minute]
  split_ifs with h
  · simp [h]
  · simp [h]

lemma allNone_rowAvgTemp (dt : DataType) (d : RawRow)
    (h : ∀ x ∈ getTemps dt d, x = none) : rowAvgTemp dt d = 0 := by
  have hnil : (getTemps dt d).filterMap id = [] := by
    rw [List.filterMap_eq_nil_iff]
    intro a ha
    simpa using h a ha
  rw [rowAvgTemp]
  simp [d3Mean, hnil, jsOrZero]

/-- C1: the claimed partition rule — window `i` holds exactly the rows
with ordinal in `[⌊i·2.5⌋, ⌊(i+1)·2.5⌋)`, giving window averages
`[37.1, 37.0667]` on the 5-row example — is false: on the 5-row input
the code produces window averages `[37, 37.2]`, not `[37.1, 556/15]`. -/
theorem windowPartition_claim_cex :
    ¬ ((processRows ex5 .female).map (fun p => p.avgTemp) = [371 / 10, 556 / 15]) := by
  rw [processRows_ex5_avgTemps]
  intro h
  have h0 : (37 : ℚ) = 371 / 10 := by
    have := congrArg (fun l => l.headI) h
    simpa using this
  norm_num at h0

/-- C1 (amended): row `i` is assigned to window `⌊i / 2.5⌋`, so window
`j` holds exactly the rows whose ordinal `i` satisfies
`j·2.5 ≤ i < (j+1)·2.5`; on the 5-row example `[37.0, 37.2, 36.8, 37.4,
37.0]` the output has window averages `[37.0, 37.2]` (window 0 = rows
0–2, window 1 = rows 3–4). -/
theorem windowPartition_amended :
    (∀ i j : ℕ, windowIndexOf i = j ↔
      ((j : ℚ) * windowSize ≤ (i : ℚ) ∧ (i : ℚ) < ((j : ℚ) + 1) * windowSize)) ∧
    (processRows ex5 .female).map (fun p => p.avgTemp) = [37, 186 / 5] :=
  ⟨windowIndexOf_eq_iff, processRows_ex5_avgTemps⟩

/-- C2: the claimed output length `⌈rowCount / 2.5⌉` is false: a 3-row
input yields 1 window (rows 0,1,2 all have `⌊i/2.5⌋ = 0`), while
`⌈3 / 2.5⌉ = 2`. -/
theorem windowCount_claim_cex :
    ¬ (((processRows ex3 .female).length : ℤ) = ⌈(ex3.length : ℚ) / windowSize⌉) := by
  rw [processRows_ex3_length]
  have hlen : ((ex3.length : ℕ) : ℚ) = 3 := by norm_num [ex3]
  rw [hlen]
  have hceil : ⌈(3 : ℚ) / windowSize⌉ = 2 := by
    unfold windowSize
    rw [Int.ceil_eq_iff]
    norm_num
  rw [hceil]
  norm_num

/-- C2 (amended): for every non-empty input and `windowSizeMinutes =
2.5`, the number of windows is `⌊(len − 1) / 2.5⌋ + 1 = 2·(len−1)/5 + 1`
(natural division), which differs from `⌈len / 2.5⌉` exactly when
`len ≡ 3 (mod 5)`. -/
theorem windowCount_amended (rows : List RawRow) (dt : DataType) (h : rows ≠ []) :
    (processRows rows dt).length = 2 * (rows.length - 1) / 5 + 1 := by
  rw [processRows, List.length_map, groupRows_length rows dt h, windowIndexOf_eq]

/-- C2 witness: on the 3-row input the amended formula gives
`2·2/5 + 1 = 1` window. -/
theorem windowCount_amended_witness :
    ex3 ≠ [] ∧ (processRows ex3 .female).length = 2 * (ex3.length - 1) / 5 + 1 :=
  ⟨by simp [ex3], windowCount_amended ex3 .female (by simp [ex3])⟩

/-- C3: the claim that an all-non-numeric row contributes no value to
its window's mean is false: such a row pushes the fallback `0` into its
group. With rows `[37, all-NaN]` in one window the code yields window
average `(37 + 0)/2 = 18.5`, not `37`. -/
theorem nanRow_claim_cex :
    (processRows exNaN .female).map (fun p => p.avgTemp) = [37 / 2] ∧
      (37 / 2 : ℚ) ≠ 37 :=
  ⟨processRows_exNaN_avgTemps, by norm_num⟩

/-- C3 (amended): a row whose every selected cohort cell is non-numeric
contributes the fallback value `0` to its window (its per-row mean is
undefined and `|| 0` coerces it to `0`, which is pushed); consequently a
window consisting solely of such rows has `avgTemperature = 0`. -/
theorem nanRow_amended :
    (∀ dt d, (∀ x ∈ getTemps dt d, x = none) → rowAvgTemp dt d = 0) ∧
    (∀ rows dt, (∀ d ∈ rows, ∀ x ∈ getTemps dt d, x = none) →
      ∀ w ∈ processRows rows dt, w.avgTemp = 0) := by
  constructor
  · exact allNone_rowAvgTemp
  · intro rows dt h w hw
    obtain ⟨p, hp, rfl⟩ := List.mem_map.mp hw
    have hne : p.2 ≠ [] := groupRows_snd_ne rows dt p hp
    have hzero : ∀ x ∈ p.2, x = 0 :=
      groupRowsAux_snd_all (fun x => x = 0) dt rows 0 [] (by simp)
        (fun d hd => allNone_rowAvgTemp dt d (h d hd)) p hp
    rw [mkPoint_avgTemp, d3Mean_map_some p.2 hne, jsOrZero_some,
      List.sum_eq_zero hzero, zero_div]

/-- C3 witness: the all-NaN row contributes `0`, and a one-row window
made of it has average `0`. -/
theorem nanRow_amended_witness :
    rowAvgTemp .female nanRow = 0 ∧ (mkPoint 0 [0]).avgTemp = 0 := by
  constructor
  · exact nanRow_amended.1 .female nanRow (by intro x hx; simpa [getTemps, nanRow] using hx)
  · refine nanRow_amended.2 [nanRow] .female ?_ (mkPoint 0 [0]) ?_
    · intro d hd x hx
      rw [List.mem_singleton] at hd
      subst hd
      simpa [getTemps, nanRow] using hx
    · have hg : groupRows [nanRow] .female = [(0, [0])] := by
        simp [groupRows, groupRowsAux, rowAvgTemp_nanRow, windowIndexOf_eq, pushToGroup]
      rw [processRows, hg]
      simp

/-- C4: the window keys of the output are exactly `0..N-1` in
increasing order (no gaps, no repeats); equivalently the emitted
`minute` values are `0·2.5, 1·2.5, ..., (N-1)·2.5` in order. -/
theorem windowIndices_exact (rows : List RawRow) (dt : DataType) :
    (groupRows rows dt).map Prod.fst = List.range ((groupRows rows dt).length) ∧
    (processRows rows dt).map (fun w => w.minute) =
      (List.range ((processRows rows dt).length)).map
        (fun j : ℕ => (j : ℚ) * windowSize) := by
  refine ⟨groupRows_map_fst rows dt, ?_⟩
  have h1 : (processRows rows dt).map (fun w => w.minute) =
      ((groupRows rows dt).map Prod.fst).map (fun j : ℕ => (j : ℚ) * windowSize) := by
    rw [processRows, List.map_map, List.map_map]
    rfl
  have hlen : (processRows rows dt).length = (groupRows rows dt).length := by
    rw [processRows, List.length_map]
  rw [h1, groupRows_map_fst, hlen]

/-- C5: for every emitted window, the `light` field is `1` exactly when
`minute mod 1440 < 720`, where `minute = windowIndex × 2.5`. -/
theorem lightFlag_spec (rows : List RawRow) (dt : DataType) (w : ProcessedDataPoint)
    (hw : w ∈ processRows rows dt) :
    w.light = 1 ↔ w.minute - 1440 * ⌊w.minute / 1440⌋ < 720 := by
  obtain ⟨p, _, rfl⟩ := List.mem_map.mp hw
  exact mkPoint_light_iff p.1 p.2

/-- C5 witness: the single window of a one-row input, at minute 0,
has `light = 1`. -/
theorem lightFlag_spec_witness :
    (mkPoint 0 [37]).light = 1 ↔
      (mkPoint 0 [37]).minute - 1440 * ⌊(mkPoint 0 [37]).minute / 1440⌋ < 720 :=
  lightFlag_spec [mkRow 37] .female (mkPoint 0 [37])
    (by rw [processRows_single]; exact List.mem_singleton.mpr rfl)

/-- C6: for every emitted window, the `estrus` field is `1` exactly
when `dayIndex mod 4 = 2`, where `dayIndex = ⌊minute / 1440⌋`. -/
theorem estrusFlag_spec (rows : List RawRow) (dt : DataType) (w : ProcessedDataPoint)
    (hw : w ∈ processRows rows dt) :
    w.estrus = 1 ↔ ⌊w.minute / 1440⌋ % 4 = 2 := by
  obtain ⟨p, _, rfl⟩ := List.mem_map.mp hw
  exact mkPoint_estrus_iff p.1 p.2

/-- C6 witness: the single window of a one-row input is on day 0,
so `estrus = 0` and `0 % 4 ≠ 2`. -/
theorem estrusFlag_spec_witness :
    (mkPoint 0 [37]).estrus = 1 ↔ ⌊(mkPoint 0 [37]).minute / 1440⌋ % 4 = 2 :=
  estrusFlag_spec [mkRow 37] .female (mkPoint 0 [37])
    (by rw [processRows_single]; exact List.mem_singleton.mpr rfl)

/-- C7: an empty input yields an empty output sequence (the `forEach`
loop and the `Map` stay empty) and the renderer's early guard
`if (!processedData.length) return;` treats it as nothing to draw. -/
theorem emptyRows_emptyOutput (dt : DataType) (xDomain : ℚ × ℚ) :
    processRows [] dt = [] ∧
      createVisualizationVisible (processRows [] dt) xDomain = none :=
  ⟨rfl, rfl⟩

/-- C8: the unit conversion round-trips exactly over ℚ:
`toCelsius (toFahrenheit x) = x`. -/
theorem tempConversion_roundTrip (x : ℚ) : toCelsius (toFahrenheit x) = x := by
  unfold toCelsius toFahrenheit
  ring

/-- C9: every emitted `avgTemperature` is a genuine rational number,
never `NaN`/`undefined`: an undefined per-row mean is coerced to `0`,
every window group collects at least one per-row value, and the
window-level mean is therefore defined and equals the emitted value. -/
theorem avgTemp_never_nan :
    (∀ dt d, d3Mean (getTemps dt d) = none → rowAvgTemp dt d = 0) ∧
    (∀ rows dt p, p ∈ groupRows rows dt →
      p.2 ≠ [] ∧ d3Mean (p.2.map some) = some ((mkPoint p.1 p.2).avgTemp)) := by
  constructor
  · intro dt d h
    rw [rowAvgTemp, h]
    rfl
  · intro rows dt p hp
    have hne : p.2 ≠ [] := groupRows_snd_ne rows dt p hp
    refine ⟨hne, ?_⟩
    rw [mkPoint_avgTemp, d3Mean_map_some p.2 hne, jsOrZero_some]

/-- C9 witness: for the all-NaN row the per-row mean is undefined and
coerced to 0; for a one-row input the sole group is `(0, [37])`, whose
window mean is defined. -/
theorem avgTemp_never_nan_witness :
    rowAvgTemp .female nanRow = 0 ∧
      (([37] : List ℚ) ≠ [] ∧
        d3Mean (([37] : List ℚ).map some) = some ((mkPoint 0 [37]).avgTemp)) := by
  constructor
  · exact avgTemp_never_nan.1 .female nanRow rfl
  · exact avgTemp_never_nan.2 [mkRow 37] .female (0, [37])
      (by rw [groupRows_single]; exact List.mem_singleton.mpr rfl)

/-- C10: estrus highlighting only for the female cohort:
`updateDataType` to `'male'`/`'both'` clears `showEstrus`; the
estrus-toggle click is a no-op unless `dataType = 'female'`; in every
reachable state a non-female cohort has `showEstrus = false`; and the
render guard draws estrus rectangles only when the cohort is female. -/
theorem estrusOnlyFemale :
    (∀ s t, t ≠ DataType.female → (updateDataType s t).showEstrus = false) ∧
    (∀ s, s.dataType ≠ DataType.female → estrusToggleClick s = s) ∧
    (∀ s, ReachableUI s → s.dataType ≠ DataType.female → s.showEstrus = false) ∧
    (∀ s, drawsEstrus s = true → s.dataType = DataType.female) := by
  refine ⟨?_, ?_, ?_, ?_⟩
  · intro s t h
    simp [updateDataType, h]
  · intro s h
    rw [estrusToggleClick, if_neg h]
  · intro s hr
    induction hr with
    | init => intro h; exact absurd rfl h
    | step s' e _ ih =>
      cases e with
      | setDataType t =>
        by_cases ht : t = DataType.female
        · subst ht
          intro h
          have hfem : (uiStep s' (UIEvent.setDataType DataType.female)).dataType =
              DataType.female := by
            simp [uiStep, updateDataType]
          exact absurd hfem h
        · intro _
          simp [uiStep, updateDataType, ht]
      | clickEstrusToggle =>
        by_cases hf : s'.dataType = DataType.female
        · intro h
          have hfem : (uiStep s' UIEvent.clickEstrusToggle).dataType =
              DataType.female := by
            simp [uiStep, estrusToggleClick, hf]
          exact absurd hfem h
        · intro _
          have hstep : uiStep s' UIEvent.clickEstrusToggle = s' := by
            simp [uiStep, estrusToggleClick, hf]
          rw [hstep]
          exact ih hf
  · intro s h
    simp only [drawsEstrus, Bool.and_eq_true, beq_iff_eq] at h
    exact h.2

/-- C10 witness: switching to the male cohort clears `showEstrus`; the
toggle click does nothing in the male state; the male state reached
from the initial state has `showEstrus = false`; the initial state's
active guard implies a female cohort. -/
theorem estrusOnlyFemale_witness :
    (updateDataType initUIState DataType.male).showEstrus = false ∧
    estrusToggleClick ⟨DataType.male, false⟩ = ⟨DataType.male, false⟩ ∧
    (uiStep initUIState (UIEvent.setDataType DataType.male)).showEstrus = false ∧
    initUIState.dataType = DataType.female := by
  refine ⟨?_, ?_, ?_, ?_⟩
  · exact estrusOnlyFemale.1 initUIState DataType.male (by decide)
  · exact estrusOnlyFemale.2.1 ⟨DataType.male, false⟩ (by decide)
  · exact estrusOnlyFemale.2.2.1 _
      (ReachableUI.step initUIState (UIEvent.setDataType DataType.male) ReachableUI.init)
      (by decide)
  · exact estrusOnlyFemale.2.2.2 initUIState rfl
